import Mathlib

/-!
Verification of the `cos_upload` client library (Tencent COS uploader).

The development shallowly embeds the two algorithmic cores of the repository:

* `src/signature.rs` — canonicalization of query/header maps and the
  HMAC-SHA1 authorization token (`generate_authorization`,
  `format_params`, `format_headers`, `hmac_sha1`, `sha1_digest`);
* `src/uploader.rs` — the simple-vs-multipart routing decision, the
  multipart part loop with its u32 part counter, the initiate-response
  parse, the part-upload response handling, and the completion manifest.

Rust strings are modelled as Lean `String`s (`String.data` is the list of
Unicode scalar values; byte-lexicographic order of a UTF-8 encoded string
coincides with scalar-value lexicographic order, which justifies modelling
Rust's byte-wise `String::cmp` by a scalar-value comparison).
`HashMap<String,String>` is modelled as an association list; since the code
sorts the entries with a total comparator before use, the (unspecified)
iteration order of the hash map is irrelevant to the modelled outputs.
Machine integers are modelled as `Nat` with explicit bounds/reductions
(`% 4294967296` for 32-bit words; the u32 part counter via
`checked_add_u32`).  Fallible operations return `Option`/`Except`; the two
`Option::unwrap` calls of `uploader.rs` are modelled by explicit `.crash`
outcomes so that the panic sites are visible in the model.
-/

/-! ## Bytes, UTF-8 and hex encoding -/

/-- UTF-8 encoding of one Unicode scalar value, as a list of byte values.
Standard 1–4 byte encoding; used to model Rust's `str::as_bytes`. -/
def utf8Bytes (c : Char) : List Nat :=
  let n := c.toNat
  if n < 128 then [n]
  else if n < 2048 then [192 + n / 64, 128 + n % 64]
  else if n < 65536 then [224 + n / 4096, 128 + (n / 64) % 64, 128 + n % 64]
  else [240 + n / 262144, 128 + (n / 4096) % 64, 128 + (n / 64) % 64, 128 + n % 64]

/-- The UTF-8 bytes of a string (Rust `str::as_bytes`). -/
def strBytes (s : String) : List Nat := s.data.flatMap utf8Bytes

/-- Lower-case hexadecimal digit (models the `hex` crate's alphabet). -/
def hexDigitL (n : Nat) : Char :=
  if n < 10 then Char.ofNat (48 + n) else Char.ofNat (87 + n)

/-- Upper-case hexadecimal digit (used by the `urlencoding` crate). -/
def hexDigitU (n : Nat) : Char :=
  if n < 10 then Char.ofNat (48 + n) else Char.ofNat (55 + n)

/-- Lower-case hex string of a byte list (models `hex::encode`). -/
def hexStr (bs : List Nat) : String :=
  String.mk (bs.flatMap fun b => [hexDigitL (b / 16), hexDigitL (b % 16)])

/-! ## 32-bit words on `Nat`

The SHA-1 compression function works on 32-bit words.  We keep them as
`Nat` and reduce modulo `2^32` explicitly; the bitwise operations are
defined by structural recursion over 32 bit positions so that they reduce
inside the kernel. -/

/-- Bitwise AND of the low `k` bits. -/
def andAux : Nat → Nat → Nat → Nat
  | 0, _, _ => 0
  | k + 1, a, b => (a % 2) * (b % 2) + 2 * andAux k (a / 2) (b / 2)

/-- Bitwise OR of the low `k` bits. -/
def orAux : Nat → Nat → Nat → Nat
  | 0, _, _ => 0
  | k + 1, a, b => (a % 2 + b % 2 - (a % 2) * (b % 2)) + 2 * orAux k (a / 2) (b / 2)

/-- Bitwise XOR of the low `k` bits. -/
def xorAux : Nat → Nat → Nat → Nat
  | 0, _, _ => 0
  | k + 1, a, b => (a % 2 + b % 2) % 2 + 2 * xorAux k (a / 2) (b / 2)

/-- 32-bit bitwise AND. -/
def andW (a b : Nat) : Nat := andAux 32 a b

/-- 32-bit bitwise OR. -/
def orW (a b : Nat) : Nat := orAux 32 a b

/-- 32-bit bitwise XOR. -/
def xorW (a b : Nat) : Nat := xorAux 32 a b

/-- 32-bit left rotation of a word `x < 2^32`. -/
def rotl (n x : Nat) : Nat := x * 2 ^ n % 4294967296 + x / 2 ^ (32 - n)

/-! ## SHA-1 (RFC 3174), modelling the `sha1` crate -/

/-- Big-endian byte decomposition (`k` bytes, most significant first). -/
def bytesBE : Nat → Nat → List Nat
  | 0, _ => []
  | k + 1, n => bytesBE k (n / 256) ++ [n % 256]

/-- SHA-1 padding: append `0x80`, zero bytes up to 56 mod 64, and the
bit length as a 64-bit big-endian integer. -/
def sha1Pad (msg : List Nat) : List Nat :=
  let z := (64 - (msg.length + 9) % 64) % 64
  msg ++ [128] ++ List.replicate z 0 ++ bytesBE 8 (msg.length * 8)

/-- Group bytes into big-endian 32-bit words. -/
def toWords : List Nat → List Nat
  | b0 :: b1 :: b2 :: b3 :: rest => (((b0 * 256 + b1) * 256 + b2) * 256 + b3) :: toWords rest
  | _ => []

/-- Message-schedule extension: append `k` further words, each
`rotl 1 (w[i-3] xor w[i-8] xor w[i-14] xor w[i-16])`. -/
def sha1Ext : Nat → List Nat → List Nat
  | 0, ws => ws
  | k + 1, ws =>
      sha1Ext k (ws ++ [rotl 1 (xorW (xorW (ws.getD (ws.length - 3) 0) (ws.getD (ws.length - 8) 0))
        (xorW (ws.getD (ws.length - 14) 0) (ws.getD (ws.length - 16) 0)))])

/-- The 80 SHA-1 rounds, consuming the extended schedule. -/
def sha1Rounds : List Nat → Nat → Nat × Nat × Nat × Nat × Nat → Nat × Nat × Nat × Nat × Nat
  | [], _, st => st
  | w :: ws, i, (a, b, c, d, e) =>
      let f :=
        if i < 20 then orW (andW b c) (andW (xorW b 4294967295) d)
        else if i < 40 then xorW (xorW b c) d
        else if i < 60 then orW (orW (andW b c) (andW b d)) (andW c d)
        else xorW (xorW b c) d
      let kc :=
        if i < 20 then 1518500249
        else if i < 40 then 1859775393
        else if i < 60 then 2400959708
        else 3395469782
      let temp := (rotl 5 a + f + e + kc + w) % 4294967296
      sha1Rounds ws (i + 1) (temp, a, rotl 30 b, c, d)

/-- Split the word stream into 16-word blocks. -/
def chunkBlocks : List Nat → List (List Nat)
  | w0 :: w1 :: w2 :: w3 :: w4 :: w5 :: w6 :: w7 :: w8 :: w9 :: w10 :: w11 :: w12 :: w13 :: w14 :: w15 :: rest =>
      [w0, w1, w2, w3, w4, w5, w6, w7, w8, w9, w10, w11, w12, w13, w14, w15] :: chunkBlocks rest
  | _ => []

/-- Fold the compression function over all blocks. -/
def sha1Blocks : List (List Nat) → Nat × Nat × Nat × Nat × Nat → Nat × Nat × Nat × Nat × Nat
  | [], h => h
  | blk :: rest, (h0, h1, h2, h3, h4) =>
      let ws := sha1Ext 64 blk
      let st := sha1Rounds ws 0 (h0, h1, h2, h3, h4)
      sha1Blocks rest ((h0 + st.1) % 4294967296, (h1 + st.2.1) % 4294967296,
        (h2 + st.2.2.1) % 4294967296, (h3 + st.2.2.2.1) % 4294967296,
        (h4 + st.2.2.2.2) % 4294967296)

/-- SHA-1 digest of a byte list, as 20 bytes. -/
def sha1Bytes (msg : List Nat) : List Nat :=
  let h := sha1Blocks (chunkBlocks (toWords (sha1Pad msg)))
    (1732584193, 4023233417, 2562383102, 271733878, 3285377520)
  bytesBE 4 h.1 ++ bytesBE 4 h.2.1 ++ bytesBE 4 h.2.2.1 ++ bytesBE 4 h.2.2.2.1 ++ bytesBE 4 h.2.2.2.2

/-! ## HMAC-SHA1 (RFC 2104), modelling the `hmac` crate -/

/-- HMAC key preparation: keys longer than the 64-byte block are hashed,
then the key is zero-padded to the block size.  This accepts keys of every
length, which is why `Hmac::<Sha1>::new_from_slice` never fails. -/
def blockSizedKey (key : List Nat) : List Nat :=
  let k := if 64 < key.length then sha1Bytes key else key
  k ++ List.replicate (64 - k.length) 0

/-- HMAC-SHA1 computation over a prepared (block-sized) key. -/
def hmacFinalize (bk msg : List Nat) : List Nat :=
  sha1Bytes ((bk.map fun b => xorW b 92) ++ sha1Bytes ((bk.map fun b => xorW b 54) ++ msg))

/-- Models `Hmac::<Sha1>::new_from_slice` from the RustCrypto `hmac`
crate: it accepts keys of any length (RFC 2104 key preparation) and never
returns `InvalidLength`, hence always `some`. -/
def hmac_new_from_slice (key : List Nat) : Option (List Nat) := some (blockSizedKey key)

/-- Embeds `hmac_sha1` of `src/signature.rs`: hex-encoded HMAC-SHA1 of the
UTF-8 bytes of `message` under the UTF-8 bytes of `key`. -/
def hmac_sha1 (key message : String) : String :=
  hexStr (hmacFinalize (blockSizedKey (strBytes key)) (strBytes message))

/-- Embeds `hmac_sha1` with the fallible key-initialization made explicit:
`Hmac::new_from_slice(...).unwrap()` panics exactly when
`hmac_new_from_slice` returns `none`. -/
def hmac_sha1_checked (key message : String) : Option String :=
  match hmac_new_from_slice (strBytes key) with
  | none => none
  | some bk => some (hexStr (hmacFinalize bk (strBytes message)))

/-- Embeds `sha1_digest` of `src/signature.rs`. -/
def sha1_digest (message : String) : String := hexStr (sha1Bytes (strBytes message))

set_option maxRecDepth 100000

/-- RFC 3174 test vector, checking the SHA-1 embedding. -/
theorem sha1_digest_vector : sha1_digest "abc" = "a9993e364706816aba3e25717850c26c9cd0d89d" := by
  decide

/-- RFC 2202 test vector 2, checking the HMAC-SHA1 embedding. -/
theorem hmac_sha1_vector :
    hmac_sha1 "Jefe" "what do ya want for nothing?" = "effcdf6ae5eb2fa2d27416d5f184df9c259a7c79" := by
  decide

/-! ## Canonicalizer (`format_params` / `format_headers` of `src/signature.rs`) -/

/-- Models Rust `str::to_lowercase`.  On the ASCII range (which covers all
keys used by the repository and all concrete inputs below) Unicode
lowercasing is exactly per-character ASCII lowercasing, which
`Char.toLower` implements. -/
def to_lowercase (s : String) : String := String.mk (s.data.map Char.toLower)

/-- RFC 3986 unreserved bytes: ASCII alphanumerics and `-`, `.`, `_`, `~`
(the set kept verbatim by the `urlencoding` crate). -/
def isUnreservedByte (b : Nat) : Bool :=
  (48 ≤ b && b ≤ 57) || (65 ≤ b && b ≤ 90) || (97 ≤ b && b ≤ 122) ||
    b == 45 || b == 46 || b == 95 || b == 126

/-- Models `urlencoding::encode`: every UTF-8 byte outside the unreserved
set becomes `%XX` with upper-case hex digits. -/
def url_encode (s : String) : String :=
  String.mk ((strBytes s).flatMap fun b =>
    if isUnreservedByte b then [Char.ofNat b] else ['%', hexDigitU (b / 16), hexDigitU (b % 16)])

/-- Byte-lexicographic comparison of scalar-value lists; models Rust's
`String::cmp` (byte order on UTF-8, which coincides with scalar-value
order). -/
def charsLe : List Char → List Char → Bool
  | [], _ => true
  | _ :: _, [] => false
  | a :: as, b :: bs =>
      decide (a.toNat < b.toNat) || (decide (a.toNat = b.toNat) && charsLe as bs)

/-- The `≤` of Rust's `String` ordering. -/
def strLe (a b : String) : Prop := charsLe a.data b.data = true

/-- The comparator passed to `sort_by` in `format_params`/`format_headers`:
compare the ORIGINAL keys (`a.0.cmp(b.0)`). -/
def keyRel (a b : String × String) : Prop := strLe a.1 b.1

instance : DecidableRel keyRel := fun a b => by
  unfold keyRel strLe; infer_instance

/-- Embeds `format_params` of `src/signature.rs`: sort the entries by the
original key, then emit the semicolon-joined lower-cased name list and the
ampersand-joined percent-encoded `key=value` string.  `Vec::sort_by` is a
stable sort, as is `List.insertionSort`; on the distinct keys of a
`HashMap` the sorted sequence is in any case unique. -/
def format_params (params : List (String × String)) : String × String :=
  let sorted_params := List.insertionSort keyRel params
  let url_param_list := String.intercalate ";" (sorted_params.map fun p => to_lowercase p.1)
  let http_parameters := String.intercalate "&"
    (sorted_params.map fun p => url_encode (to_lowercase p.1) ++ "=" ++ url_encode p.2)
  (url_param_list, http_parameters)

/-- Embeds `format_headers` of `src/signature.rs` (same code as
`format_params`, applied to the header map). -/
def format_headers (headers : List (String × String)) : String × String :=
  let sorted_headers := List.insertionSort keyRel headers
  let header_list := String.intercalate ";" (sorted_headers.map fun p => to_lowercase p.1)
  let http_headers := String.intercalate "&"
    (sorted_headers.map fun p => url_encode (to_lowercase p.1) ++ "=" ++ url_encode p.2)
  (header_list, http_headers)

/-- The ordering the claim asserts: sort on the LOWER-CASED form of the
keys by byte order. -/
def keyRelLower (a b : String × String) : Prop := strLe (to_lowercase a.1) (to_lowercase b.1)

instance : DecidableRel keyRelLower := fun a b => by
  unfold keyRelLower strLe; infer_instance

/-- Written from the claim's words (not from the source), for comparison
with `format_params`: identical output construction, but entries ordered by
the lower-cased keys. -/
def format_params_claim (params : List (String × String)) : String × String :=
  let sorted_params := List.insertionSort keyRelLower params
  (String.intercalate ";" (sorted_params.map fun p => to_lowercase p.1),
   String.intercalate "&"
     (sorted_params.map fun p => url_encode (to_lowercase p.1) ++ "=" ++ url_encode p.2))

/-! ## Signer (`generate_authorization` of `src/signature.rs`)

`Utc::now().timestamp()` is impure; the timestamp is passed as the extra
parameter `now`, everything else follows the source line by line. -/

/-- Embeds `generate_authorization` of `src/signature.rs`. -/
def generate_authorization (secret_id secret_key method path : String)
    (params headers : List (String × String)) (expire now : Int) : String :=
  let start_time := now
  let end_time := start_time + expire
  let key_time := toString start_time ++ ";" ++ toString end_time
  let fp := format_params params
  let fh := format_headers headers
  let sign_key := hmac_sha1 secret_key key_time
  let http_string := to_lowercase method ++ "\n" ++ path ++ "\n" ++ fp.2 ++ "\n" ++ fh.2 ++ "\n"
  let sha1_http_string := sha1_digest http_string
  let string_to_sign := "sha1\n" ++ key_time ++ "\n" ++ sha1_http_string ++ "\n"
  let signature := hmac_sha1 sign_key string_to_sign
  "q-sign-algorithm=sha1&q-ak=" ++ secret_id ++ "&q-sign-time=" ++ key_time ++
    "&q-key-time=" ++ key_time ++ "&q-header-list=" ++ fh.1 ++
    "&q-url-param-list=" ++ fp.1 ++ "&q-signature=" ++ signature

/-- Embeds `generate_authorization` with the two fallible HMAC key
initializations (`.unwrap()` sites inside `hmac_sha1`) made explicit:
the result is `none` exactly when one of them would panic. -/
def generate_authorization_checked (secret_id secret_key method path : String)
    (params headers : List (String × String)) (expire now : Int) : Option String :=
  let start_time := now
  let end_time := start_time + expire
  let key_time := toString start_time ++ ";" ++ toString end_time
  let fp := format_params params
  let fh := format_headers headers
  match hmac_sha1_checked secret_key key_time with
  | none => none
  | some sign_key =>
    let http_string := to_lowercase method ++ "\n" ++ path ++ "\n" ++ fp.2 ++ "\n" ++ fh.2 ++ "\n"
    let sha1_http_string := sha1_digest http_string
    let string_to_sign := "sha1\n" ++ key_time ++ "\n" ++ sha1_http_string ++ "\n"
    match hmac_sha1_checked sign_key string_to_sign with
    | none => none
    | some signature =>
      some ("q-sign-algorithm=sha1&q-ak=" ++ secret_id ++ "&q-sign-time=" ++ key_time ++
        "&q-key-time=" ++ key_time ++ "&q-header-list=" ++ fh.1 ++
        "&q-url-param-list=" ++ fp.1 ++ "&q-signature=" ++ signature)

/-! ## Uploader (`src/uploader.rs`) -/

/-- Embeds `MULTIPART_THRESHOLD` (5 MiB): files strictly larger use
multipart upload. -/
def MULTIPART_THRESHOLD : Nat := 5 * 1024 * 1024

/-- Embeds `PART_SIZE` (5 MiB): the byte size of each multipart part. -/
def PART_SIZE : Nat := 5 * 1024 * 1024

/-- The two routes `upload_file` can take. -/
inductive UploadRoute
  | simple
  | multipart
deriving DecidableEq

/-- Embeds the entry decision of `upload_file`:
`if file_size > MULTIPART_THRESHOLD { multipart } else { simple }`. -/
def upload_file_route (file_size : Nat) : UploadRoute :=
  if MULTIPART_THRESHOLD < file_size then .multipart else .simple

/-- `u32::MAX`. -/
def U32_MAX : Nat := 4294967295

/-- Embeds `u32::checked_add`: `none` on overflow. -/
def checked_add_u32 (a b : Nat) : Option Nat :=
  if a + b ≤ U32_MAX then some (a + b) else none

/-- One record of the multipart loop: part number, byte range
`[start, stop)` read from the file, and the ETag returned by
`upload_part`. -/
structure PartRec where
  num : Nat
  start : Nat
  stop : Nat
  etag : String
deriving DecidableEq

/-- Embeds the part loop of `multipart_upload` (lines 162–182 of
`src/uploader.rs`).  `k` is `part_number - 1` (the loop starts with
`part_number = 1u32`); `f` is the oracle giving the ETag that the
(successful) `upload_part` call for a given part number returns.  Each
iteration covers bytes `[k*P, min ((k+1)*P) S)`, records the part, and then
advances the counter with `checked_add`, failing with the source's error
message (分块编号溢出, “part number overflow”) when `part_number + 1`
would exceed `u32::MAX`.  An error of any iteration aborts the whole loop,
discarding the collected records, exactly as `?` does in the source. -/
def multipart_loop (S P : Nat) (hP : 0 < P) (f : Nat → String) (k : Nat) :
    Except String (List PartRec) :=
  if h : k * P < S then
    let etag := f (k + 1)
    match checked_add_u32 (k + 1) 1 with
    | none => Except.error "分块编号溢出"
    | some _ =>
      match multipart_loop S P hP f (k + 1) with
      | Except.error e => Except.error e
      | Except.ok rest => Except.ok (⟨k + 1, k * P, min ((k + 1) * P) S, etag⟩ :: rest)
  else Except.ok []
termination_by S - k * P
decreasing_by
  have h1 : (k + 1) * P = k * P + P := by ring
  omega

/-- The part records produced by `multipart_upload` for a file of size `S`
with ETag oracle `f`: the loop of the source, started at `part_number = 1`
with the fixed `PART_SIZE`. -/
def multipart_upload_parts (S : Nat) (f : Nat → String) : Except String (List PartRec) :=
  multipart_loop S PART_SIZE (by norm_num [PART_SIZE]) f 0

/-- `ceil (S / P)`, the expected number of parts. -/
def numParts (S P : Nat) : Nat := (S + P - 1) / P

/-- The record the loop produces for part number `m` (a helper for the
closed form of `multipart_loop`). -/
def mkPart (S P : Nat) (f : Nat → String) (m : Nat) : PartRec :=
  ⟨m, (m - 1) * P, min (m * P) S, f m⟩

/-- Embeds the XML completion manifest built by
`complete_multipart_upload` from the `(part_number, etag)` pairs, in the
order of the given list (`.iter().map(...).join("")`). -/
def complete_body (parts : List (Nat × String)) : String :=
  "<CompleteMultipartUpload>" ++
    String.join (parts.map fun p =>
      "<Part><PartNumber>" ++ toString p.1 ++ "</PartNumber><ETag>" ++ p.2 ++ "</ETag></Part>") ++
    "</CompleteMultipartUpload>"

/-- Embeds `reqwest::StatusCode::is_success`: 2xx statuses. -/
def isSuccess (status : Nat) : Bool := 200 ≤ status && status < 300

/-- Fuel-driven splitter core: `splitAux needle fuel acc hay` scans `hay`
for non-overlapping occurrences of `needle`, accumulating the current piece
in `acc` (reversed).  The fuel only forces termination; `hay.length + 1`
steps always suffice for a non-empty needle. -/
def splitAux (needle : List Char) : Nat → List Char → List Char → List (List Char)
  | 0, acc, hay => [acc.reverse ++ hay]
  | fuel + 1, acc, hay =>
      if needle.isPrefixOf hay then
        acc.reverse :: splitAux needle fuel [] (hay.drop needle.length)
      else
        match hay with
        | [] => [acc.reverse]
        | c :: rest => splitAux needle fuel (c :: acc) rest

/-- Models Rust's `str::split` with a non-empty literal pattern: the pieces
of `hay` between consecutive non-overlapping occurrences of `needle`
(leftmost-first). -/
def splitRust (needle hay : List Char) : List (List Char) :=
  splitAux needle (hay.length + 1) [] hay

/-- Outcome of handling the initiate-multipart response in
`init_multipart_upload`. -/
inductive InitOutcome
  | ok (upload_id : String)
  | err (msg : String)
  | crash
deriving DecidableEq

/-- Embeds lines 251–265 of `src/uploader.rs`: on a 2xx response the body
is scanned with `text.split("<UploadId>").nth(1).unwrap()
.split("</UploadId>").next().unwrap()`.  When the body has no
`<UploadId>` marker, `nth(1)` is `None` and the first `unwrap` panics —
modelled as `.crash`.  (`next()` on a `split` iterator always yields a
first piece, so the second `unwrap` cannot fire.)  A non-2xx status
returns the typed error of the source. -/
def init_response_outcome (status : Nat) (body : List Char) : InitOutcome :=
  if isSuccess status then
    match (splitRust "<UploadId>".data body).get? 1 with
    | none => .crash
    | some rest =>
        .ok (String.mk ((splitRust "</UploadId>".data rest).headD rest))
  else .err "初始化分块上传失败"

/-- Outcome of handling one part-upload response in `upload_part`. -/
inductive PartOutcome
  | ok (etag : String)
  | err (msg : String)
  | crash
deriving DecidableEq

/-- Embeds lines 332–342 of `src/uploader.rs`: on a 2xx response the code
returns `response.headers().get("ETag").unwrap()...`; when the header is
absent `unwrap` panics — modelled as `.crash`.  A non-2xx status returns
the typed error of the source. -/
def upload_part_outcome (status : Nat) (etag_header : Option String) : PartOutcome :=
  if isSuccess status then
    match etag_header with
    | none => .crash
    | some e => .ok e
  else .err "上传分块失败"

/-! ## Order properties of the key comparator -/

theorem charsLe_total : ∀ a b : List Char, charsLe a b = true ∨ charsLe b a = true
  | [], _ => Or.inl rfl
  | _ :: _, [] => Or.inr rfl
  | a :: as, b :: bs => by
      simp only [charsLe, Bool.or_eq_true, Bool.and_eq_true, decide_eq_true_eq]
      rcases Nat.lt_trichotomy a.toNat b.toNat with h | h | h
      · exact Or.inl (Or.inl h)
      · rcases charsLe_total as bs with ih | ih
        · exact Or.inl (Or.inr ⟨h, ih⟩)
        · exact Or.inr (Or.inr ⟨h.symm, ih⟩)
      · exact Or.inr (Or.inl h)

theorem charsLe_trans : ∀ a b c : List Char,
    charsLe a b = true → charsLe b c = true → charsLe a c = true
  | [], _, _, _, _ => rfl
  | _ :: _, [], _, h, _ => by simp [charsLe] at h
  | _ :: _, _ :: _, [], _, h2 => by simp [charsLe] at h2
  | a :: as, b :: bs, c :: cs, h1, h2 => by
      simp only [charsLe, Bool.or_eq_true, Bool.and_eq_true, decide_eq_true_eq] at h1 h2 ⊢
      rcases h1 with h1 | ⟨h1e, h1r⟩
      · rcases h2 with h2 | ⟨h2e, h2r⟩
        · exact Or.inl (h1.trans h2)
        · exact Or.inl (by omega)
      · rcases h2 with h2 | ⟨h2e, h2r⟩
        · exact Or.inl (by omega)
        · exact Or.inr ⟨by omega, charsLe_trans as bs cs h1r h2r⟩

instance : IsTotal (String × String) keyRel :=
  ⟨fun a b => charsLe_total a.1.data b.1.data⟩

instance : IsTrans (String × String) keyRel :=
  ⟨fun a b c => charsLe_trans a.1.data b.1.data c.1.data⟩

/-! ## Claim C1 -/

/-- Claim C1, refuted at a concrete input: for the two-entry map
`{"B" ↦ "x", "a" ↦ "y"}` the code sorts on the ORIGINAL keys
(`"B" < "a"` in byte order), producing `("b;a", "b=x&a=y")`, while
sorting on the lower-cased keys (as the claim states) would produce
`("a;b", "a=y&b=x")`. -/
theorem c1_counterexample :
    format_params [("B", "x"), ("a", "y")] = ("b;a", "b=x&a=y") ∧
    format_params_claim [("B", "x"), ("a", "y")] = ("a;b", "a=y&b=x") ∧
    (("b;a", "b=x&a=y") : String × String) ≠ ("a;b", "a=y&b=x") :=
  ⟨by decide, by decide, by decide⟩

/-- Claim C1 (amended): for every non-empty query map and every non-empty
header map, the two outputs of each of `format_params`/`format_headers`
list the entries in the order obtained by sorting on the ORIGINAL keys by
byte order (not on their lower-cased form); names are lower-cased after
sorting, and the `key=value` string percent-encodes the lower-cased key
and the value. -/
theorem c1_canonical_order (params headers : List (String × String))
    (hp : params ≠ []) (hh : headers ≠ [])
    (hup : (params.map Prod.fst).Nodup) (huh : (headers.map Prod.fst).Nodup) :
    (∃ sp : List (String × String), sp.Perm params ∧ sp.Pairwise keyRel ∧
        format_params params =
          (String.intercalate ";" (sp.map fun q => to_lowercase q.1),
           String.intercalate "&"
             (sp.map fun q => url_encode (to_lowercase q.1) ++ "=" ++ url_encode q.2))) ∧
    (∃ sh : List (String × String), sh.Perm headers ∧ sh.Pairwise keyRel ∧
        format_headers headers =
          (String.intercalate ";" (sh.map fun q => to_lowercase q.1),
           String.intercalate "&"
             (sh.map fun q => url_encode (to_lowercase q.1) ++ "=" ++ url_encode q.2))) := by
  constructor
  · exact ⟨List.insertionSort keyRel params, List.perm_insertionSort keyRel params,
      List.sorted_insertionSort keyRel params, rfl⟩
  · exact ⟨List.insertionSort keyRel headers, List.perm_insertionSort keyRel headers,
      List.sorted_insertionSort keyRel headers, rfl⟩

/-- Witness for `c1_canonical_order` at concrete non-empty maps. -/
theorem c1_canonical_order_witness :
    ([("B", "x"), ("a", "y")] : List (String × String)) ≠ [] ∧
    ([("Host", "b.cos.r.myqcloud.com")] : List (String × String)) ≠ [] ∧
    (([("B", "x"), ("a", "y")] : List (String × String)).map Prod.fst).Nodup ∧
    (([("Host", "b.cos.r.myqcloud.com")] : List (String × String)).map Prod.fst).Nodup ∧
    ((∃ sp : List (String × String), sp.Perm [("B", "x"), ("a", "y")] ∧ sp.Pairwise keyRel ∧
        format_params [("B", "x"), ("a", "y")] =
          (String.intercalate ";" (sp.map fun q => to_lowercase q.1),
           String.intercalate "&"
             (sp.map fun q => url_encode (to_lowercase q.1) ++ "=" ++ url_encode q.2))) ∧
    (∃ sh : List (String × String), sh.Perm [("Host", "b.cos.r.myqcloud.com")] ∧
        sh.Pairwise keyRel ∧
        format_headers [("Host", "b.cos.r.myqcloud.com")] =
          (String.intercalate ";" (sh.map fun q => to_lowercase q.1),
           String.intercalate "&"
             (sh.map fun q => url_encode (to_lowercase q.1) ++ "=" ++ url_encode q.2)))) :=
  ⟨by decide, by decide, by decide, by decide,
    c1_canonical_order _ _ (by decide) (by decide) (by decide) (by decide)⟩

/-! ## Claims C7 and C9 -/

theorem intercalate_amp7 (f1 f2 f3 f4 f5 f6 f7 : String) :
    String.intercalate "&" [f1, f2, f3, f4, f5, f6, f7] =
      f1 ++ "&" ++ f2 ++ "&" ++ f3 ++ "&" ++ f4 ++ "&" ++ f5 ++ "&" ++ f6 ++ "&" ++ f7 := rfl

/-- Claim C7: for every input, the authorization token is the
ampersand-joined sequence of `key=value` fields in exactly the fixed order
algorithm (`sha1`), access key id, sign-time, key-time, header-name list,
param-name list, signature — with the sign-time and key-time fields
carrying the identical `start;end` window string. -/
theorem c7_authorization_token_format (secret_id secret_key method path : String)
    (params headers : List (String × String)) (expire now : Int) :
    ∃ key_time signature : String,
      key_time = toString now ++ ";" ++ toString (now + expire) ∧
      generate_authorization secret_id secret_key method path params headers expire now =
        String.intercalate "&"
          ["q-sign-algorithm=sha1",
           "q-ak=" ++ secret_id,
           "q-sign-time=" ++ key_time,
           "q-key-time=" ++ key_time,
           "q-header-list=" ++ (format_headers headers).1,
           "q-url-param-list=" ++ (format_params params).1,
           "q-signature=" ++ signature] := by
  refine ⟨toString now ++ ";" ++ toString (now + expire),
    hmac_sha1 (hmac_sha1 secret_key (toString now ++ ";" ++ toString (now + expire)))
      ("sha1\n" ++ (toString now ++ ";" ++ toString (now + expire)) ++ "\n" ++
        sha1_digest (to_lowercase method ++ "\n" ++ path ++ "\n" ++ (format_params params).2 ++
          "\n" ++ (format_headers headers).2 ++ "\n") ++ "\n"),
    rfl, ?_⟩
  have hgen : generate_authorization secret_id secret_key method path params headers expire now =
      "q-sign-algorithm=sha1&q-ak=" ++ secret_id ++ "&q-sign-time=" ++
        (toString now ++ ";" ++ toString (now + expire)) ++ "&q-key-time=" ++
        (toString now ++ ";" ++ toString (now + expire)) ++ "&q-header-list=" ++
        (format_headers headers).1 ++ "&q-url-param-list=" ++ (format_params params).1 ++
        "&q-signature=" ++
        hmac_sha1 (hmac_sha1 secret_key (toString now ++ ";" ++ toString (now + expire)))
          ("sha1\n" ++ (toString now ++ ";" ++ toString (now + expire)) ++ "\n" ++
            sha1_digest (to_lowercase method ++ "\n" ++ path ++ "\n" ++
              (format_params params).2 ++ "\n" ++ (format_headers headers).2 ++ "\n") ++ "\n") := rfl
  have e1 : ("q-sign-algorithm=sha1&q-ak=" : String) = "q-sign-algorithm=sha1" ++ "&" ++ "q-ak=" := by
    decide
  have e2 : ("&q-sign-time=" : String) = "&" ++ "q-sign-time=" := by decide
  have e3 : ("&q-key-time=" : String) = "&" ++ "q-key-time=" := by decide
  have e4 : ("&q-header-list=" : String) = "&" ++ "q-header-list=" := by decide
  have e5 : ("&q-url-param-list=" : String) = "&" ++ "q-url-param-list=" := by decide
  have e6 : ("&q-signature=" : String) = "&" ++ "q-signature=" := by decide
  rw [intercalate_amp7, hgen, e1, e2, e3, e4, e5, e6]
  simp only [String.append_assoc]

/-- Claim C9: `generate_authorization` is total — for every combination of
inputs (including empty secret key, method, path and arbitrary maps) the
variant with explicit HMAC key-initialization failure points returns
`some` of the token, i.e. the internal `unwrap` is unreachable because
HMAC-SHA1 accepts keys of any length. -/
theorem c9_generate_authorization_total (secret_id secret_key method path : String)
    (params headers : List (String × String)) (expire now : Int) :
    generate_authorization_checked secret_id secret_key method path params headers expire now =
      some (generate_authorization secret_id secret_key method path params headers expire now) := rfl

/-! ## Arithmetic of the part loop -/

theorem loop_cond_iff (S P k : Nat) (hP : 0 < P) : k * P < S ↔ k < numParts S P := by
  unfold numParts
  have h1 : (k + 1) * P = k * P + P := by ring
  constructor
  · intro h
    have h2 : (k + 1) * P ≤ S + P - 1 := by omega
    have h3 := (Nat.le_div_iff_mul_le hP).mpr h2
    omega
  · intro h
    have h3 : (k + 1) * P ≤ S + P - 1 := (Nat.le_div_iff_mul_le hP).mp (by omega)
    omega

theorem numParts_mul_ge (S P : Nat) (hP : 0 < P) : S ≤ numParts S P * P := by
  unfold numParts
  have h1 := Nat.div_add_mod (S + P - 1) P
  have h2 : (S + P - 1) % P < P := Nat.mod_lt _ hP
  have h3 : (S + P - 1) / P * P = P * ((S + P - 1) / P) := Nat.mul_comm _ _
  omega

theorem numParts_pos (S P : Nat) (hP : 0 < P) (hS : 0 < S) : 0 < numParts S P := by
  have := (loop_cond_iff S P 0 hP).mp (by omega)
  omega

/-- Closed form of the part loop when the part count stays below
`u32::MAX`: starting at zero-based position `k` it succeeds and yields the
parts numbered `k+1, …, numParts`. -/
theorem multipart_loop_ok (S P : Nat) (hP : 0 < P) (f : Nat → String)
    (hsafe : numParts S P < U32_MAX) :
    ∀ c k, numParts S P - k = c →
      multipart_loop S P hP f k = Except.ok ((List.range' (k + 1) c).map (mkPart S P f)) := by
  intro c
  induction c with
  | zero =>
      intro k hk
      have hcond : ¬ k * P < S := by
        rw [loop_cond_iff S P k hP]; omega
      rw [multipart_loop, dif_neg hcond]
      rfl
  | succ c ih =>
      intro k hk
      have hkN : k < numParts S P := by omega
      have hcond : k * P < S := (loop_cond_iff S P k hP).mpr hkN
      have hadd : checked_add_u32 (k + 1) 1 = some (k + 2) := by
        unfold checked_add_u32
        rw [if_pos (by unfold U32_MAX at *; omega)]
      rw [multipart_loop, dif_pos hcond, hadd, ih (k + 1) (by omega)]
      show Except.ok _ = _
      have hr : List.range' (k + 1) (c + 1) = (k + 1) :: List.range' (k + 2) c := by
        simp [List.range']
      rw [hr]
      simp [mkPart]

/-- When the part count reaches `u32::MAX`, the loop aborts with the
overflow error (instead of wrapping the counter). -/
theorem multipart_loop_overflow (S P : Nat) (hP : 0 < P) (f : Nat → String)
    (hbig : U32_MAX ≤ numParts S P) :
    ∀ c k, U32_MAX - 1 - k = c → k ≤ U32_MAX - 1 →
      multipart_loop S P hP f k = Except.error "分块编号溢出" := by
  intro c
  induction c with
  | zero =>
      intro k hk hk2
      have hcond : k * P < S := (loop_cond_iff S P k hP).mpr (by unfold U32_MAX at *; omega)
      have hadd : checked_add_u32 (k + 1) 1 = none := by
        unfold checked_add_u32
        rw [if_neg (by unfold U32_MAX at *; omega)]
      rw [multipart_loop, dif_pos hcond, hadd]
  | succ c ih =>
      intro k hk hk2
      have hcond : k * P < S := (loop_cond_iff S P k hP).mpr (by unfold U32_MAX at *; omega)
      have hadd : checked_add_u32 (k + 1) 1 = some (k + 2) := by
        unfold checked_add_u32
        rw [if_pos (by unfold U32_MAX at *; omega)]
      rw [multipart_loop, dif_pos hcond, hadd, ih (k + 1) (by omega) (by omega)]

/-! ## Claim C4 -/

/-- Claim C4: files of size at most 5 MiB (including exactly 5 MiB) take
the simple single-PUT path; files at least one byte larger take the
multipart path. -/
theorem c4_threshold_routing (S : Nat) :
    (S ≤ 5 * 1024 * 1024 → upload_file_route S = .simple) ∧
    (5 * 1024 * 1024 + 1 ≤ S → upload_file_route S = .multipart) := by
  unfold upload_file_route MULTIPART_THRESHOLD
  constructor <;> intro h
  · rw [if_neg (by omega)]
  · rw [if_pos (by omega)]

/-- Witness for `c4_threshold_routing` at the boundary sizes 5 MiB and
5 MiB + 1. -/
theorem c4_threshold_routing_witness :
    (5242880 ≤ 5 * 1024 * 1024 ∧ upload_file_route 5242880 = .simple) ∧
    (5 * 1024 * 1024 + 1 ≤ 5242881 ∧ upload_file_route 5242881 = .multipart) :=
  ⟨⟨by decide, (c4_threshold_routing 5242880).1 (by decide)⟩,
   ⟨by decide, (c4_threshold_routing 5242881).2 (by decide)⟩⟩

/-! ## Claim C5 -/

/-- Claim C5, refuted at a concrete input: the claim quantifies over EVERY
file size `S > 0`, but for `S = 4294967294 * 5242880 + 1 = 22517998126366721`
(a valid `u64` file size with `ceil(S/P) = 4294967295 = u32::MAX`) the loop
aborts with the part-counter overflow error instead of producing
`ceil(S/P)` parts. -/
theorem c5_counterexample :
    (0 : Nat) < 22517998126366721 ∧
    multipart_upload_parts 22517998126366721 (fun _ => "etag") =
      Except.error "分块编号溢出" := by
  refine ⟨by decide, ?_⟩
  unfold multipart_upload_parts
  exact multipart_loop_overflow 22517998126366721 PART_SIZE (by norm_num [PART_SIZE])
    (fun _ => "etag") (by decide) (U32_MAX - 1) 0 (by omega) (by unfold U32_MAX; omega)

/-- Claim C5 (amended): for every file size `S > 0` whose part count
`ceil(S/P)` stays below `u32::MAX` (so the u32 part counter does not
overflow), the multipart loop succeeds and produces exactly `ceil(S/P)`
parts numbered `1..=ceil(S/P)` with no gaps or duplicates, where part `n`
covers `[(n-1)*P, min (n*P) S)`; the ranges are non-empty, contiguous,
start at 0 and end at `S`, so they cover `[0, S)` without overlap. -/
theorem c5_part_plan (S : Nat) (f : Nat → String) (hS : 0 < S)
    (hsafe : numParts S PART_SIZE < U32_MAX) :
    ∃ l : List PartRec,
      multipart_upload_parts S f = Except.ok l ∧
      l.length = numParts S PART_SIZE ∧
      l.map PartRec.num = List.range' 1 (numParts S PART_SIZE) ∧
      (∀ r ∈ l, r.start = (r.num - 1) * PART_SIZE ∧ r.stop = min (r.num * PART_SIZE) S) ∧
      (∀ r ∈ l, r.start < r.stop) ∧
      List.Chain' (fun a b => a.stop = b.start) l ∧
      l.head?.map PartRec.start = some 0 ∧
      l.getLast?.map PartRec.stop = some S := by
  have hP : 0 < PART_SIZE := by norm_num [PART_SIZE]
  have hok := multipart_loop_ok S PART_SIZE hP f hsafe (numParts S PART_SIZE) 0 rfl
  refine ⟨(List.range' 1 (numParts S PART_SIZE)).map (mkPart S PART_SIZE f),
    ?_, ?_, ?_, ?_, ?_, ?_, ?_, ?_⟩
  · unfold multipart_upload_parts
    exact hok
  · simp
  · simp only [List.map_map]
    have hc : (PartRec.num ∘ mkPart S PART_SIZE f) = id := funext fun m => rfl
    rw [hc, List.map_id]
  · intro r hr
    rcases List.mem_map.mp hr with ⟨m, _, rfl⟩
    exact ⟨rfl, rfl⟩
  · intro r hr
    rcases List.mem_map.mp hr with ⟨m, hm, rfl⟩
    rcases List.mem_range'_1.mp hm with ⟨hm1, hm2⟩
    have hmN : m - 1 < numParts S PART_SIZE := by omega
    have hlt : (m - 1) * PART_SIZE < S := (loop_cond_iff S PART_SIZE (m - 1) hP).mpr hmN
    have hlt2 : (m - 1) * PART_SIZE < m * PART_SIZE := by
      have hstep : (m - 1) * PART_SIZE + PART_SIZE = m * PART_SIZE := by
        have hm' : m - 1 + 1 = m := by omega
        calc (m - 1) * PART_SIZE + PART_SIZE = (m - 1 + 1) * PART_SIZE := by ring
          _ = m * PART_SIZE := by rw [hm']
      omega
    show (mkPart S PART_SIZE f m).start < (mkPart S PART_SIZE f m).stop
    simp only [mkPart]
    omega
  · rw [List.chain'_map]
    rw [List.chain'_iff_get]
    intro i hi
    simp only [List.length_range'] at hi
    simp only [List.get_eq_getElem, List.getElem_range', mkPart]
    have h2 : 1 + 1 * (i + 1) - 1 = 1 + 1 * i := by omega
    rw [h2]
    have hlt : (1 + 1 * i) * PART_SIZE < S :=
      (loop_cond_iff S PART_SIZE (1 + 1 * i) hP).mpr (by omega)
    exact Nat.min_eq_left (Nat.le_of_lt hlt)
  · have hN := numParts_pos S PART_SIZE hP hS
    rcases Nat.exists_eq_add_of_lt hN with ⟨c, hc⟩
    rw [show numParts S PART_SIZE = c + 1 by omega]
    rw [show List.range' 1 (c + 1) = 1 :: List.range' 2 c by simp [List.range']]
    rfl
  · have hN := numParts_pos S PART_SIZE hP hS
    rcases Nat.exists_eq_add_of_lt hN with ⟨c, hc⟩
    rw [show numParts S PART_SIZE = c + 1 by omega]
    rw [List.range'_concat, List.map_append]
    rw [show List.map (mkPart S PART_SIZE f) [1 + 1 * c] = [mkPart S PART_SIZE f (1 + 1 * c)]
      from rfl]
    rw [List.getLast?_concat]
    show some (mkPart S PART_SIZE f (1 + 1 * c)).stop = some S
    simp only [mkPart]
    have hge : S ≤ numParts S PART_SIZE * PART_SIZE := numParts_mul_ge S PART_SIZE hP
    rw [show numParts S PART_SIZE = 1 + 1 * c by omega] at hge
    rw [Nat.min_eq_right hge]

/-- Witness for `c5_part_plan` at the two-part file size 5 MiB + 1. -/
theorem c5_part_plan_witness :
    0 < 5242881 ∧ numParts 5242881 PART_SIZE < U32_MAX ∧
    (∃ l : List PartRec,
      multipart_upload_parts 5242881 (fun _ => "W") = Except.ok l ∧
      l.length = numParts 5242881 PART_SIZE ∧
      l.map PartRec.num = List.range' 1 (numParts 5242881 PART_SIZE) ∧
      (∀ r ∈ l, r.start = (r.num - 1) * PART_SIZE ∧ r.stop = min (r.num * PART_SIZE) 5242881) ∧
      (∀ r ∈ l, r.start < r.stop) ∧
      List.Chain' (fun a b => a.stop = b.start) l ∧
      l.head?.map PartRec.start = some 0 ∧
      l.getLast?.map PartRec.stop = some 5242881) :=
  ⟨by decide, by decide, c5_part_plan 5242881 (fun _ => "W") (by decide) (by decide)⟩

/-! ## Claim C6 -/

/-- Claim C6: whenever incrementing the u32 part counter would exceed its
maximum (the part count reaches `u32::MAX`), the multipart orchestration
fails with the overflow error and aborts instead of wrapping the
counter. -/
theorem c6_counter_overflow_aborts (S : Nat) (f : Nat → String)
    (h : U32_MAX ≤ numParts S PART_SIZE) :
    multipart_upload_parts S f = Except.error "分块编号溢出" := by
  unfold multipart_upload_parts
  exact multipart_loop_overflow S PART_SIZE (by norm_num [PART_SIZE]) f h
    (U32_MAX - 1) 0 (by omega) (by unfold U32_MAX; omega)

/-- Witness for `c6_counter_overflow_aborts` at a concrete size reaching
`u32::MAX` parts. -/
theorem c6_counter_overflow_aborts_witness :
    U32_MAX ≤ numParts 22517998126366722 PART_SIZE ∧
    multipart_upload_parts 22517998126366722 (fun _ => "e") = Except.error "分块编号溢出" :=
  ⟨by decide, c6_counter_overflow_aborts 22517998126366722 (fun _ => "e") (by decide)⟩

/-! ## Claim C8 -/

/-- Claim C8: whenever the part loop completes successfully (the only way
`complete_multipart_upload` is reached), the XML completion manifest lists
exactly one entry per uploaded part, in strictly ascending part-number
order, each entry carrying the integrity token (ETag) returned for that
part. -/
theorem c8_manifest_ascending (S : Nat) (f : Nat → String) (l : List PartRec)
    (h : multipart_upload_parts S f = Except.ok l) :
    List.Chain' (· < ·) (l.map PartRec.num) ∧
    (∀ r ∈ l, r.etag = f r.num) ∧
    complete_body (l.map fun r => (r.num, r.etag)) =
      "<CompleteMultipartUpload>" ++
        String.join (l.map fun r =>
          "<Part><PartNumber>" ++ toString r.num ++ "</PartNumber><ETag>" ++ r.etag ++
            "</ETag></Part>") ++
        "</CompleteMultipartUpload>" := by
  have hP : 0 < PART_SIZE := by norm_num [PART_SIZE]
  unfold multipart_upload_parts at h
  by_cases hsafe : numParts S PART_SIZE < U32_MAX
  · have hok := multipart_loop_ok S PART_SIZE hP f hsafe (numParts S PART_SIZE) 0 rfl
    rw [hok] at h
    injection h with h
    subst h
    refine ⟨?_, ?_, ?_⟩
    · simp only [List.map_map]
      have hc : (PartRec.num ∘ mkPart S PART_SIZE f) = id := funext fun m => rfl
      rw [hc, List.map_id]
      exact (List.pairwise_lt_range' _ _ 1).chain'
    · intro r hr
      rcases List.mem_map.mp hr with ⟨m, _, rfl⟩
      rfl
    · unfold complete_body
      rw [List.map_map]
      rfl
  · have herr := multipart_loop_overflow S PART_SIZE hP f (by omega)
      (U32_MAX - 1) 0 (by omega) (by unfold U32_MAX; omega)
    rw [herr] at h
    exact Except.noConfusion h

/-- Witness for `c8_manifest_ascending` at the two-part file size
5 MiB + 1. -/
theorem c8_manifest_ascending_witness :
    multipart_upload_parts 5242881 (fun _ => "T") =
      Except.ok [⟨1, 0, 5242880, "T"⟩, ⟨2, 5242880, 5242881, "T"⟩] ∧
    (List.Chain' (· < ·)
        (([⟨1, 0, 5242880, "T"⟩, ⟨2, 5242880, 5242881, "T"⟩] : List PartRec).map PartRec.num) ∧
      (∀ r ∈ ([⟨1, 0, 5242880, "T"⟩, ⟨2, 5242880, 5242881, "T"⟩] : List PartRec),
        r.etag = (fun _ : Nat => "T") r.num) ∧
      complete_body
          (([⟨1, 0, 5242880, "T"⟩, ⟨2, 5242880, 5242881, "T"⟩] : List PartRec).map
            fun r => (r.num, r.etag)) =
        "<CompleteMultipartUpload>" ++
          String.join (([⟨1, 0, 5242880, "T"⟩, ⟨2, 5242880, 5242881, "T"⟩] : List PartRec).map
            fun r => "<Part><PartNumber>" ++ toString r.num ++ "</PartNumber><ETag>" ++ r.etag ++
              "</ETag></Part>") ++
          "</CompleteMultipartUpload>") := by
  have he : multipart_upload_parts 5242881 (fun _ => "T") =
      Except.ok [⟨1, 0, 5242880, "T"⟩, ⟨2, 5242880, 5242881, "T"⟩] := by
    have hok := multipart_loop_ok 5242881 PART_SIZE (by norm_num [PART_SIZE]) (fun _ => "T")
      (by decide) 2 0 (by decide)
    unfold multipart_upload_parts
    rw [hok]
    exact congrArg Except.ok (by decide)
  exact ⟨he, c8_manifest_ascending 5242881 (fun _ => "T") _ he⟩

/-! ## Claim C10 -/

/-- Claim C10: because the multipart threshold equals the part size, the
multipart path is only taken for `S > P`, hence `ceil(S/P) ≥ 2`; and every
successfully produced part list has at least two parts — a single-part
multipart upload never occurs. -/
theorem c10_multipart_at_least_two_parts (S : Nat) (f : Nat → String)
    (h : upload_file_route S = .multipart) :
    2 ≤ numParts S PART_SIZE ∧
    ∀ l : List PartRec, multipart_upload_parts S f = Except.ok l → 2 ≤ l.length := by
  have hP : 0 < PART_SIZE := by norm_num [PART_SIZE]
  have hS : MULTIPART_THRESHOLD < S := by
    by_contra hc
    unfold upload_file_route at h
    rw [if_neg hc] at h
    exact UploadRoute.noConfusion h
  have h2 : 2 ≤ numParts S PART_SIZE := by
    have := (loop_cond_iff S PART_SIZE 1 hP).mp
      (by unfold MULTIPART_THRESHOLD at hS; norm_num [PART_SIZE]; omega)
    omega
  refine ⟨h2, fun l hl => ?_⟩
  unfold multipart_upload_parts at hl
  by_cases hsafe : numParts S PART_SIZE < U32_MAX
  · have hok := multipart_loop_ok S PART_SIZE hP f hsafe (numParts S PART_SIZE) 0 rfl
    rw [hok] at hl
    injection hl with hl
    subst hl
    simpa using h2
  · have herr := multipart_loop_overflow S PART_SIZE hP f (by omega)
      (U32_MAX - 1) 0 (by omega) (by unfold U32_MAX; omega)
    rw [herr] at hl
    exact Except.noConfusion hl

/-- Witness for `c10_multipart_at_least_two_parts` at the size 5 MiB + 1. -/
theorem c10_multipart_witness :
    upload_file_route 5242881 = .multipart ∧
    (2 ≤ numParts 5242881 PART_SIZE ∧
      ∀ l : List PartRec, multipart_upload_parts 5242881 (fun _ => "e") = Except.ok l →
        2 ≤ l.length) :=
  ⟨by decide, c10_multipart_at_least_two_parts 5242881 (fun _ => "e") (by decide)⟩

/-! ## Claims C2 and C3 -/

/-- Claim C2 evaluated at the failing input (code bug): on a 2xx
initiate-multipart response whose body lacks the `<UploadId>` marker the
code reaches `Option::unwrap` on `None` and PANICS instead of returning
the typed error the claim (and the spec) require.  The second and third
conjuncts document the surrounding behaviour: a body with the marker
yields the extracted id, and a non-2xx status yields the typed error. -/
theorem c2_init_parse_crashes_on_missing_marker :
    init_response_outcome 200 "<Error><Code>NoSuchBucket</Code></Error>".data =
      InitOutcome.crash ∧
    init_response_outcome 200
        "<InitiateMultipartUploadResult><UploadId>abc123</UploadId></InitiateMultipartUploadResult>".data =
      InitOutcome.ok "abc123" ∧
    init_response_outcome 404 "<Error/>".data = InitOutcome.err "初始化分块上传失败" :=
  ⟨by decide, by decide, by decide⟩

/-- Claim C3 evaluated at the failing input (code bug): on a 2xx part
upload response without an ETag header the code reaches `Option::unwrap`
on `None` and PANICS instead of returning a protocol-violation error; with
the header present it does return the header's value, and a non-2xx status
yields the typed error. -/
theorem c3_upload_part_etag_handling :
    upload_part_outcome 200 none = PartOutcome.crash ∧
    (∀ e : String, upload_part_outcome 200 (some e) = PartOutcome.ok e) ∧
    upload_part_outcome 500 none = PartOutcome.err "上传分块失败" :=
  ⟨by decide, fun _ => rfl, by decide⟩
